import Mathlib

/-!
Verification of the authentication core of the chirpy backend
(`src/internal/auth/auth.go`, current version: the one containing the
empty-password guard, `GetBearerToken`, and the `[]byte(tokenSecret)`
signing key).

The Go code is shallowly embedded:
* Go strings are Lean `String`s; byte lengths are `String.utf8ByteSize`
  (Go `len` on a string counts bytes).
* stateful calls (`time.Now()`, bcrypt's random salt generation) become
  explicit parameters: each call site of `time.Now()` gets its own
  time parameter, each `HashPassword` call gets the salt that
  `bcrypt.GenerateFromPassword` would draw.
* the cryptographic primitives (the bcrypt key-derivation function and
  HMAC-SHA-256) are idealised as collision-free functions, modelled by
  pairing their inputs; everything around them (guards, control flow,
  error paths, claim construction and validation order) is translated
  from the source and from the documented contracts of
  `golang.org/x/crypto/bcrypt`, `github.com/golang-jwt/jwt/v5` and
  `github.com/google/uuid`.
* a Go `(value, error)` return is a Lean pair whose second component is
  an `Option` error; `nil` error is `none`, and the Go zero value that
  accompanies a non-`nil` error is kept explicit (it is what claim C10
  is about).
-/

/-! ## Credential hasher: HashPassword / CheckPasswordHash -/

/-- Error values produced by the password-hashing functions of
`auth.go`.  `emptyInput` is the explicit guard message
"error hashing password of zero length"; `passwordTooLong` wraps
bcrypt's `ErrPasswordTooLong`; `authMismatch` wraps bcrypt's
`ErrMismatchedHashAndPassword`; `malformedHash` wraps the error
bcrypt's `newFromHash` returns on a string that is not a bcrypt
hash (such as the empty string). -/
inductive AuthError where
  | emptyInput
  | passwordTooLong
  | authMismatch
  | malformedHash
deriving DecidableEq, Repr

/-- Idealised bcrypt key derivation: the Blowfish-based KDF keyed by
password, salt and cost is modelled as the collision-free function that
records its inputs. -/
def bcryptKDF (password : String) (salt cost : Nat) : String × Nat × Nat :=
  (password, salt, cost)

/-- A parsed bcrypt hash: the `$2a$cost$salt||digest` string format is
an injective encoding of exactly these three components, so the model
works with the components directly. -/
structure BcryptHash where
  cost : Nat
  salt : Nat
  digest : String × Nat × Nat
deriving DecidableEq, Repr

/-- `bcrypt.DefaultCost` (the Go code passes it explicitly). -/
def DefaultCost : Nat := 10

/-- `bcrypt.GenerateFromPassword` from `golang.org/x/crypto/bcrypt`:
fails with `ErrPasswordTooLong` when the password is longer than 72
bytes (its documented contract), and otherwise produces the hash of the
password under a freshly drawn `salt`.  The salt, drawn from the
package's randomness, is an explicit parameter here.  A Go
`(nil, err)` return is `(none, some e)`. -/
def GenerateFromPassword (password : String) (cost salt : Nat) :
    Option BcryptHash × Option AuthError :=
  if password.utf8ByteSize > 72 then (none, some .passwordTooLong)
  else (some { cost := cost, salt := salt, digest := bcryptKDF password salt cost }, none)

/-- `bcrypt.CompareHashAndPassword`: parses the stored hash (a value
that is not a bcrypt hash, such as Go's `""`, is `none` here and fails
to parse), re-derives the digest from the candidate password with the
stored salt and cost, and compares. -/
def CompareHashAndPassword (hash : Option BcryptHash) (password : String) :
    Option AuthError :=
  match hash with
  | none => some .malformedHash
  | some h => if h.digest = bcryptKDF password h.salt h.cost then none else some .authMismatch

/-- `HashPassword` (auth.go, current version), instrumented with a log
of the passwords handed to the underlying primitive: returns the Go
result pair together with the list of arguments on which
`bcrypt.GenerateFromPassword` was invoked.  The guard
`len(password) == 0` is the test `password = ""` (a Go string has byte
length zero exactly when it is empty). -/
def HashPasswordTraced (password : String) (salt : Nat) :
    (Option BcryptHash × Option AuthError) × List String :=
  if password = "" then ((none, some .emptyInput), [])
  else (GenerateFromPassword password DefaultCost salt, [password])

/-- `HashPassword` (auth.go): the result pair of the instrumented
version. -/
def HashPassword (password : String) (salt : Nat) :
    Option BcryptHash × Option AuthError :=
  (HashPasswordTraced password salt).1

/-- `CheckPasswordHash` (auth.go): delegates to
`bcrypt.CompareHashAndPassword` (the Go wrapper only re-wraps the error
message). -/
def CheckPasswordHash (password : String) (hash : Option BcryptHash) :
    Option AuthError :=
  CompareHashAndPassword hash password

/-! ## UUIDs: github.com/google/uuid -/

/-- A `uuid.UUID` is a `[16]byte` array; the sixteen bytes are named
fields here. -/
structure UUID where
  b0 : Nat
  b1 : Nat
  b2 : Nat
  b3 : Nat
  b4 : Nat
  b5 : Nat
  b6 : Nat
  b7 : Nat
  b8 : Nat
  b9 : Nat
  b10 : Nat
  b11 : Nat
  b12 : Nat
  b13 : Nat
  b14 : Nat
  b15 : Nat
deriving DecidableEq, Repr

/-- Each field of a `[16]byte` value is a byte. -/
def ValidUUID (u : UUID) : Prop :=
  u.b0 < 256 ∧ u.b1 < 256 ∧ u.b2 < 256 ∧ u.b3 < 256 ∧
  u.b4 < 256 ∧ u.b5 < 256 ∧ u.b6 < 256 ∧ u.b7 < 256 ∧
  u.b8 < 256 ∧ u.b9 < 256 ∧ u.b10 < 256 ∧ u.b11 < 256 ∧
  u.b12 < 256 ∧ u.b13 < 256 ∧ u.b14 < 256 ∧ u.b15 < 256

instance (u : UUID) : Decidable (ValidUUID u) := by
  unfold ValidUUID; infer_instance

/-- `uuid.UUID{}`: the all-zero UUID. -/
def zeroUUID : UUID := ⟨0,0,0,0,0,0,0,0,0,0,0,0,0,0,0,0⟩

/-- Lower-case hexadecimal digit, as produced by `hex.Encode` inside
`UUID.String`. -/
def hexDigit (n : Nat) : Char :=
  if n < 10 then Char.ofNat ('0'.toNat + n) else Char.ofNat ('a'.toNat + n - 10)

/-- Two-digit lower-case hexadecimal encoding of one byte. -/
def byteHex (b : Nat) : List Char :=
  [hexDigit (b / 16), hexDigit (b % 16)]

/-- The character list of `UUID.String`: `encodeHex` writes the bytes
in hexadecimal with dashes after bytes 3, 5, 7 and 9
(`xxxxxxxx-xxxx-xxxx-xxxx-xxxxxxxxxxxx`). -/
def uuidChars (u : UUID) : List Char :=
  byteHex u.b0 ++ byteHex u.b1 ++ byteHex u.b2 ++ byteHex u.b3 ++ ['-'] ++
  byteHex u.b4 ++ byteHex u.b5 ++ ['-'] ++
  byteHex u.b6 ++ byteHex u.b7 ++ ['-'] ++
  byteHex u.b8 ++ byteHex u.b9 ++ ['-'] ++
  byteHex u.b10 ++ byteHex u.b11 ++ byteHex u.b12 ++
  byteHex u.b13 ++ byteHex u.b14 ++ byteHex u.b15

/-- `uuid.UUID.String`. -/
def uuidString (u : UUID) : String := ⟨uuidChars u⟩

/-- The `xvalues` table of google/uuid: hexadecimal value of a
character, `255` marking an invalid digit. -/
def xvalue (c : Char) : Nat :=
  if '0' ≤ c ∧ c ≤ '9' then c.toNat - '0'.toNat
  else if 'a' ≤ c ∧ c ≤ 'f' then c.toNat - 'a'.toNat + 10
  else if 'A' ≤ c ∧ c ≤ 'F' then c.toNat - 'A'.toNat + 10
  else 255

/-- `xtob` of google/uuid: converts two hexadecimal characters into a
byte; the Go `(byte, ok)` pair is an `Option`. -/
def xtob (c1 c2 : Char) : Option Nat :=
  if xvalue c1 = 255 ∨ xvalue c2 = 255 then none
  else some (xvalue c1 * 16 + xvalue c2)

/-- The hyphenated branch of `uuid.Parse`: a 36-character string must
carry dashes at positions 8, 13, 18 and 23 and hexadecimal digit pairs
at the sixteen fixed offsets. -/
def parseHyphenated : List Char → Option UUID
  | a1 :: a2 :: a3 :: a4 :: a5 :: a6 :: a7 :: a8 :: '-' ::
    b1 :: b2 :: b3 :: b4 :: '-' ::
    c1 :: c2 :: c3 :: c4 :: '-' ::
    d1 :: d2 :: d3 :: d4 :: '-' ::
    [e1,e2,e3,e4,e5,e6,e7,e8,e9,e10,e11,e12] => do
    let x0 ← xtob a1 a2
    let x1 ← xtob a3 a4
    let x2 ← xtob a5 a6
    let x3 ← xtob a7 a8
    let x4 ← xtob b1 b2
    let x5 ← xtob b3 b4
    let x6 ← xtob c1 c2
    let x7 ← xtob c3 c4
    let x8 ← xtob d1 d2
    let x9 ← xtob d3 d4
    let x10 ← xtob e1 e2
    let x11 ← xtob e3 e4
    let x12 ← xtob e5 e6
    let x13 ← xtob e7 e8
    let x14 ← xtob e9 e10
    let x15 ← xtob e11 e12
    some ⟨x0,x1,x2,x3,x4,x5,x6,x7,x8,x9,x10,x11,x12,x13,x14,x15⟩
  | _ => none

/-- The dash-free branch of `uuid.Parse`: 32 hexadecimal characters. -/
def parsePlain : List Char → Option UUID
  | a1 :: a2 :: a3 :: a4 :: a5 :: a6 :: a7 :: a8 ::
    a9 :: a10 :: a11 :: a12 :: a13 :: a14 :: a15 :: a16 ::
    [a17,a18,a19,a20,a21,a22,a23,a24,a25,a26,a27,a28,a29,a30,a31,a32] => do
    let x0 ← xtob a1 a2
    let x1 ← xtob a3 a4
    let x2 ← xtob a5 a6
    let x3 ← xtob a7 a8
    let x4 ← xtob a9 a10
    let x5 ← xtob a11 a12
    let x6 ← xtob a13 a14
    let x7 ← xtob a15 a16
    let x8 ← xtob a17 a18
    let x9 ← xtob a19 a20
    let x10 ← xtob a21 a22
    let x11 ← xtob a23 a24
    let x12 ← xtob a25 a26
    let x13 ← xtob a27 a28
    let x14 ← xtob a29 a30
    let x15 ← xtob a31 a32
    some ⟨x0,x1,x2,x3,x4,x5,x6,x7,x8,x9,x10,x11,x12,x13,x14,x15⟩
  | _ => none

/-- `uuid.Parse`: dispatches on the length — canonical 36-character
form, `urn:uuid:`-prefixed form (case-insensitive on the scheme),
38-character braced form (google/uuid drops the first character and
reads the next 36 without inspecting the braces themselves), and
32-character dash-free form.  A Go `(uuid, err)` return with non-`nil`
error is `none`. -/
def uuidParse (s : String) : Option UUID :=
  let l := s.data
  if l.length = 36 then parseHyphenated l
  else if l.length = 45 then
    if (l.take 9).map Char.toLower = "urn:uuid:".data then parseHyphenated (l.drop 9)
    else none
  else if l.length = 38 then parseHyphenated ((l.drop 1).take 36)
  else if l.length = 32 then parsePlain l
  else none

/-! ## Token service: MakeJWT / ValidateJWT (github.com/golang-jwt/jwt/v5) -/

/-- Signing algorithms a parsed token's header may record.  The code
only ever signs with `HS256`; the others witness the
algorithm-substitution check in `ValidateJWT`'s key callback. -/
inductive Alg where
  | HS256
  | HS384
  | HS512
  | RS256
  | algNone
deriving DecidableEq, Repr

/-- The fields of `jwt.RegisteredClaims` the program reads or writes.
Timestamps are integers (epoch seconds); a `jwt.NumericDate` pointer
that is `nil` is `none`.  `MakeJWT` never sets `notBefore`, but the
validator of jwt/v5 inspects it, so a parsed token carries it. -/
structure Claims where
  issuer : String
  subject : String
  issuedAt : Option Int
  expiresAt : Option Int
  notBefore : Option Int
deriving DecidableEq, Repr

/-- Idealised HMAC-SHA-256 over the signing input: the MAC of the
(injectively encoded) header-and-claims segments under a key is
modelled as the collision-free function recording both. -/
def hmacSHA256 (alg : Alg) (claims : Claims) (key : String) : (Alg × Claims) × String :=
  ((alg, claims), key)

/-- A signed token, abstracting the three-segment compact string: the
header's algorithm, the claims, and the signature over both. -/
structure Token where
  alg : Alg
  claims : Claims
  sig : (Alg × Claims) × String
deriving DecidableEq, Repr

/-- `MakeJWT` (auth.go, current version).  The two `time.Now()` calls
in the source (one for `IssuedAt`, one for `ExpiresAt`) are the
explicit parameters `t1` and `t2`: `IssuedAt = t1`,
`ExpiresAt = t2 + expiresIn`.  `SignedString` with `jwt.SigningMethodHS256`
and a `[]byte` key cannot fail, so the Go error branch is dead and the
result is the token itself. -/
def MakeJWT (userID : UUID) (tokenSecret : String) (expiresIn : Int)
    (t1 t2 : Int) : Token :=
  let newClaims : Claims :=
    { issuer := "chirpy"
      subject := uuidString userID
      issuedAt := some t1
      expiresAt := some (t2 + expiresIn)
      notBefore := none }
  { alg := .HS256, claims := newClaims, sig := hmacSHA256 .HS256 newClaims tokenSecret }

/-- Claim-validation failures of the jwt/v5 validator:
`jwt.ErrTokenExpired` and `jwt.ErrTokenNotValidYet`. -/
inductive ClaimErr where
  | expired
  | notYetValid
deriving DecidableEq, Repr

/-- Failure classes of `ValidateJWT`, in the order the paths occur in
jwt/v5's `ParseWithClaims` followed by the function's own epilogue:
`unverifiable` is a key-callback failure (`jwt.ErrTokenUnverifiable`;
the callback's own message is "wrong jwt signature"),
`signatureInvalid` is `jwt.ErrTokenSignatureInvalid`, `invalidClaims`
is `jwt.ErrTokenInvalidClaims` carrying the joined claim errors, and
`malformedSubject` is a `uuid.Parse` failure on the subject claim. -/
inductive JwtError where
  | unverifiable
  | signatureInvalid
  | invalidClaims (errs : List ClaimErr)
  | malformedSubject
deriving DecidableEq, Repr

/-- The jwt/v5 default validator over the claims the program uses: with
zero leeway it reports `expired` unless the current time is strictly
before `exp` (skipped when `exp` is absent), then `notYetValid` when
the current time is strictly before `nbf` (skipped when `nbf` is
absent); `iat` is not checked by default.  The collected list models
the joined error. -/
def validateClaims (c : Claims) (now : Int) : List ClaimErr :=
  (match c.expiresAt with
   | none => []
   | some exp => if now < exp then [] else [ClaimErr.expired]) ++
  (match c.notBefore with
   | none => []
   | some nbf => if nbf ≤ now then [] else [ClaimErr.notYetValid])

/-- `ValidateJWT` (auth.go, current version).  `ParseWithClaims` runs,
in order: the key callback (which rejects any method other than
`jwt.SigningMethodHS256` with the error "wrong jwt signature"),
signature verification, then claim validation.  On any of those errors
the function returns `uuid.UUID{}` with a wrapped error.  Otherwise it
reads the subject via `GetSubject` (which in jwt/v5 simply returns the
string and no error) and parses it with `uuid.Parse`, returning
`uuid.UUID{}` with an error when that fails, and the parsed UUID with a
`nil` error on success. -/
def ValidateJWT (token : Token) (tokenSecret : String) (now : Int) :
    UUID × Option JwtError :=
  if token.alg ≠ Alg.HS256 then (zeroUUID, some .unverifiable)
  else if token.sig ≠ hmacSHA256 token.alg token.claims tokenSecret then
    (zeroUUID, some .signatureInvalid)
  else if validateClaims token.claims now ≠ [] then
    (zeroUUID, some (.invalidClaims (validateClaims token.claims now)))
  else
    match uuidParse token.claims.subject with
    | none => (zeroUUID, some .malformedSubject)
    | some u => (u, none)

/-- The spec's `InvalidSignatureError` class: "fails with
`InvalidSignatureError` if the signing algorithm in the token does not
match the expected algorithm ... or the MAC does not verify".  In the
code the first case is the key callback's "wrong jwt signature" error
(`unverifiable`) and the second is `signatureInvalid`. -/
def isInvalidSignatureError : JwtError → Bool
  | .unverifiable => true
  | .signatureInvalid => true
  | _ => false

/-! ## Header extraction: GetBearerToken -/

/-- Failure classes of `GetBearerToken`, one per `return` site:
"unable to retrieve authorization header", "invalid authorization
header", "invalid token". -/
inductive BearerErr where
  | missingHeader
  | malformedHeader
  | tokenTooShort
deriving DecidableEq, Repr

/-- `unicode.IsSpace`, the cutset of Go's `strings.TrimSpace`: ASCII
whitespace, NEL, and the Unicode space category. -/
def goIsSpace (c : Char) : Bool :=
  c = '\t' ∨ c = '\n' ∨ c.toNat = 11 ∨ c.toNat = 12 ∨ c = '\r' ∨ c = ' ' ∨
  c.toNat = 0x85 ∨ c.toNat = 0xA0 ∨ c.toNat = 0x1680 ∨
  (0x2000 ≤ c.toNat ∧ c.toNat ≤ 0x200A) ∨
  c.toNat = 0x2028 ∨ c.toNat = 0x2029 ∨ c.toNat = 0x202F ∨
  c.toNat = 0x205F ∨ c.toNat = 0x3000

/-- `strings.TrimSpace` on a character list: drop leading and trailing
whitespace. -/
def trimSpaceList (l : List Char) : List Char :=
  ((l.dropWhile goIsSpace).reverse.dropWhile goIsSpace).reverse

/-- `strings.TrimSpace`. -/
def trimSpace (s : String) : String := ⟨trimSpaceList s.data⟩

/-- The literal `"Bearer "` the header must start with (note the
trailing space). -/
def bearerLit : List Char := ['B', 'e', 'a', 'r', 'e', 'r', ' ']

/-- `strings.HasPrefix p l`: the first `p.length` characters of `l`
are exactly `p`. -/
def startsWithList (l p : List Char) : Bool := l.take p.length == p

/-- `GetBearerToken` (auth.go).  `headers.Get("Authorization")` yields
`""` when the header is absent, so the function is modelled on the
header value itself: empty value fails; the trimmed value must start
with `"Bearer "`; `strings.TrimPrefix(s, "Bearer")` then removes the
six characters `Bearer`, the result is trimmed again, and the guard
`len(token) < 30` fails a token whose UTF-8 byte length (Go `len` on a
string counts bytes) is below 30. -/
def GetBearerToken (headerValue : String) : String × Option BearerErr :=
  if headerValue = "" then ("", some .missingHeader)
  else
    let t := trimSpaceList headerValue.data
    if ¬ startsWithList t bearerLit then ("", some .malformedHeader)
    else
      let tok := trimSpaceList (t.drop 6)
      if (⟨tok⟩ : String).utf8ByteSize < 30 then ("", some .tokenTooShort)
      else (⟨tok⟩, none)

/-! ## Shared lemmas -/

/-- Hexadecimal digits decode to their value. -/
theorem xvalue_hexDigit {n : Nat} (h : n < 16) : xvalue (hexDigit n) = n := by
  unfold xvalue hexDigit
  interval_cases n <;> decide

/-- Decoding inverts the two-digit encoding of a byte. -/
theorem xtob_byteHex {b : Nat} (h : b < 256) :
    xtob (hexDigit (b / 16)) (hexDigit (b % 16)) = some b := by
  have h1 : b / 16 < 16 := by omega
  have h2 : b % 16 < 16 := by omega
  unfold xtob
  rw [xvalue_hexDigit h1, xvalue_hexDigit h2, if_neg (by omega)]
  congr 1
  omega

set_option maxHeartbeats 2000000 in
/-- `uuid.Parse` inverts `uuid.UUID.String` on every valid UUID. -/
theorem uuidParse_uuidString {u : UUID} (h : ValidUUID u) :
    uuidParse (uuidString u) = some u := by
  obtain ⟨h0, h1, h2, h3, h4, h5, h6, h7, h8, h9, h10, h11, h12, h13, h14, h15⟩ := h
  have hlen : (uuidChars u).length = 36 := by
    simp [uuidChars, byteHex]
  simp only [uuidParse, uuidString]
  rw [if_pos hlen]
  simp only [uuidChars, byteHex, List.cons_append, List.nil_append]
  simp only [parseHyphenated]
  rw [xtob_byteHex h0, xtob_byteHex h1, xtob_byteHex h2, xtob_byteHex h3,
      xtob_byteHex h4, xtob_byteHex h5, xtob_byteHex h6, xtob_byteHex h7,
      xtob_byteHex h8, xtob_byteHex h9, xtob_byteHex h10, xtob_byteHex h11,
      xtob_byteHex h12, xtob_byteHex h13, xtob_byteHex h14, xtob_byteHex h15]
  rfl

/-- Dropping from an append keeps the appended tail when part of the
first list survives. -/
theorem dropWhile_append_ne_nil {α : Type} {p : α → Bool} {l1 : List α} (l2 : List α)
    (h : l1.dropWhile p ≠ []) :
    (l1 ++ l2).dropWhile p = l1.dropWhile p ++ l2 := by
  induction l1 with
  | nil => exact absurd rfl h
  | cons a t ih =>
    by_cases hpa : p a
    · rw [List.dropWhile_cons_of_pos hpa] at h
      rw [List.cons_append, List.dropWhile_cons_of_pos hpa,
        List.dropWhile_cons_of_pos hpa, ih h]
    · rw [List.cons_append, List.dropWhile_cons_of_neg hpa,
        List.dropWhile_cons_of_neg hpa, List.cons_append]

/-- Dropping from an append moves to the appended tail when the whole
first list is dropped. -/
theorem dropWhile_append_eq_nil {α : Type} {p : α → Bool} {l1 : List α} (l2 : List α)
    (h : l1.dropWhile p = []) :
    (l1 ++ l2).dropWhile p = l2.dropWhile p := by
  induction l1 with
  | nil => rfl
  | cons a t ih =>
    by_cases hpa : p a
    · rw [List.dropWhile_cons_of_pos hpa] at h
      rw [List.cons_append, List.dropWhile_cons_of_pos hpa, ih h]
    · rw [List.dropWhile_cons_of_neg hpa] at h
      exact absurd h (by simp)

/-- `rdropWhile` leaves a head alone whenever something in the tail
survives it. -/
theorem rdropWhile_cons_ne_nil {α : Type} {p : α → Bool} {t : List α} (a : α)
    (h : List.rdropWhile p t ≠ []) :
    List.rdropWhile p (a :: t) = a :: List.rdropWhile p t := by
  have hrev : t.reverse.dropWhile p ≠ [] := by
    intro hc
    exact h (by rw [List.rdropWhile, hc, List.reverse_nil])
  rw [List.rdropWhile, List.reverse_cons, dropWhile_append_ne_nil _ hrev,
    List.reverse_append, List.rdropWhile]
  rfl

/-- Left trimming and right trimming commute. -/
theorem dropWhile_rdropWhile_comm {α : Type} {p : α → Bool} (l : List α) :
    (List.rdropWhile p l).dropWhile p = List.rdropWhile p (l.dropWhile p) := by
  induction l with
  | nil => simp [List.rdropWhile_nil]
  | cons a t ih =>
    by_cases hpa : p a
    · rw [List.dropWhile_cons_of_pos hpa]
      by_cases ht : List.rdropWhile p t = []
      · have hall : ∀ x ∈ t, p x := List.rdropWhile_eq_nil_iff.mp ht
        have hcons : List.rdropWhile p (a :: t) = [] := by
          refine List.rdropWhile_eq_nil_iff.mpr ?_
          intro x hx
          rcases List.mem_cons.mp hx with hx | hx
          · rwa [hx]
          · exact hall x hx
        have hdt : t.dropWhile p = [] := List.dropWhile_eq_nil_iff.mpr hall
        rw [hcons, hdt]
        simp [List.rdropWhile_nil]
      · rw [rdropWhile_cons_ne_nil a ht, List.dropWhile_cons_of_pos hpa, ih]
    · rw [List.dropWhile_cons_of_neg hpa]
      by_cases ht : List.rdropWhile p t = []
      · have hrev : t.reverse.dropWhile p = [] := by
          have := congrArg List.reverse ht
          rwa [List.rdropWhile, List.reverse_reverse, List.reverse_nil] at this
        have hcons : List.rdropWhile p (a :: t) = [a] := by
          rw [List.rdropWhile, List.reverse_cons, dropWhile_append_eq_nil _ hrev,
            List.dropWhile_cons_of_neg hpa]
          rfl
        rw [hcons, List.dropWhile_cons_of_neg hpa]
      · rw [rdropWhile_cons_ne_nil a ht, List.dropWhile_cons_of_neg hpa]

/-- `trimSpaceList` written with `rdropWhile`. -/
theorem trimSpaceList_eq (l : List Char) :
    trimSpaceList l = List.rdropWhile goIsSpace (l.dropWhile goIsSpace) := rfl

/-- A string has at least as many UTF-8 bytes as characters: every
character encodes to at least one byte. -/
theorem length_le_utf8ByteSize : ∀ l : List Char, l.length ≤ (⟨l⟩ : String).utf8ByteSize
  | [] => Nat.le_refl 0
  | c :: cs => by
    have h1 : (⟨c :: cs⟩ : String).utf8ByteSize =
        (⟨cs⟩ : String).utf8ByteSize + c.utf8Size := rfl
    have h2 := length_le_utf8ByteSize cs
    have h3 := Char.utf8Size_pos c
    rw [h1, List.length_cons]
    omega

/-! ## Claim theorems: token service -/

/-- A sample valid UUID used by concrete witnesses. -/
def sampleUUID : UUID := ⟨17, 34, 51, 68, 85, 102, 119, 136, 153, 170, 187, 204, 221, 238, 255, 0⟩

/-- C1: for every valid 128-bit userID, every secret and every ttl > 0,
a token issued by `MakeJWT` and validated with the same secret before
the expiry time passes yields the same userID with a `nil` error. -/
theorem makeJWT_validateJWT_same_secret (u : UUID) (secret : String)
    (ttl t1 t2 now : Int) (hu : ValidUUID u) (httl : 0 < ttl)
    (hafter : t2 ≤ now) (hfresh : now < t2 + ttl) :
    ValidateJWT (MakeJWT u secret ttl t1 t2) secret now = (u, none) := by
  have hparse := uuidParse_uuidString hu
  unfold ValidateJWT
  rw [if_neg (by simp [MakeJWT])]
  rw [if_neg (by simp [MakeJWT, hmacSHA256])]
  have hvc : validateClaims (MakeJWT u secret ttl t1 t2).claims now = [] := by
    simp [MakeJWT, validateClaims, hfresh]
  rw [if_neg (by simp [hvc])]
  have hsub : (MakeJWT u secret ttl t1 t2).claims.subject = uuidString u := rfl
  rw [hsub, hparse]

/-- C1 witness: a concrete issue-then-validate round trip. -/
theorem makeJWT_validateJWT_same_secret_witness :
    ValidUUID sampleUUID ∧ (0 : Int) < 60 ∧ (0 : Int) ≤ 0 ∧ (0 : Int) < 0 + 60 ∧
    ValidateJWT (MakeJWT sampleUUID "top-secret" 60 0 0) "top-secret" 0 =
      (sampleUUID, none) :=
  ⟨by decide, by decide, by decide, by decide,
   makeJWT_validateJWT_same_secret sampleUUID "top-secret" 60 0 0 0
     (by decide) (by decide) (by decide) (by decide)⟩

/-- C3 (amended): the claims built by `MakeJWT` have issuer `"chirpy"`,
subject the canonical string of the userID, issued-at the first clock
reading, and expires-at the second clock reading plus the ttl — the
source reads `time.Now()` separately for the two fields, so expires-at
equals issued-at plus ttl only when the two readings coincide. -/
theorem makeJWT_claim_fields (u : UUID) (secret : String) (ttl t1 t2 : Int) :
    (MakeJWT u secret ttl t1 t2).claims.issuer = "chirpy" ∧
    (MakeJWT u secret ttl t1 t2).claims.subject = uuidString u ∧
    (MakeJWT u secret ttl t1 t2).claims.issuedAt = some t1 ∧
    (MakeJWT u secret ttl t1 t2).claims.expiresAt = some (t2 + ttl) :=
  ⟨rfl, rfl, rfl, rfl⟩

/-- C3 counterexample: when the second clock reading is one unit after
the first (readings 0 and 1, ttl 100), the token's expires-at is 101,
not issued-at + ttl = 100, so expires-at does not equal
issued-at + ttl as a single consistent timestamp. -/
theorem makeJWT_two_clock_reads :
    (MakeJWT zeroUUID "k" 100 0 1).claims.issuedAt = some 0 ∧
    (MakeJWT zeroUUID "k" 100 0 1).claims.expiresAt = some 101 ∧
    ¬ (MakeJWT zeroUUID "k" 100 0 1).claims.expiresAt = some (0 + 100) := by
  refine ⟨rfl, rfl, ?_⟩
  decide

/-- C7: validating a token issued with one secret using a different
secret fails with the signature-invalid error, and validating any
token whose recorded algorithm is not HS256 fails with the key
callback's "wrong jwt signature" error; both fall in the spec's
`InvalidSignatureError` class. -/
theorem validateJWT_wrong_secret_or_alg (u : UUID) (secret wrong : String)
    (ttl t1 t2 now : Int) (hw : wrong ≠ secret) :
    ((ValidateJWT (MakeJWT u secret ttl t1 t2) wrong now).2 =
        some JwtError.signatureInvalid ∧
      isInvalidSignatureError JwtError.signatureInvalid = true) ∧
    ∀ tok : Token, tok.alg ≠ Alg.HS256 →
      (ValidateJWT tok wrong now).2 = some JwtError.unverifiable ∧
      isInvalidSignatureError JwtError.unverifiable = true := by
  constructor
  · refine ⟨?_, rfl⟩
    unfold ValidateJWT
    rw [if_neg (by simp [MakeJWT])]
    rw [if_pos (by simp [MakeJWT, hmacSHA256]; exact fun h => hw h.symm)]
  · intro tok htok
    refine ⟨?_, rfl⟩
    unfold ValidateJWT
    rw [if_pos htok]

/-- C7 witness: the theorem at a concrete userID, secrets and times. -/
theorem validateJWT_wrong_secret_or_alg_witness :
    ((ValidateJWT (MakeJWT sampleUUID "s" 60 0 0) "w" 0).2 =
        some JwtError.signatureInvalid ∧
      isInvalidSignatureError JwtError.signatureInvalid = true) ∧
    ∀ tok : Token, tok.alg ≠ Alg.HS256 →
      (ValidateJWT tok "w" 0).2 = some JwtError.unverifiable ∧
      isInvalidSignatureError JwtError.unverifiable = true :=
  validateJWT_wrong_secret_or_alg sampleUUID "s" "w" 60 0 0 0 (by decide)

/-- C8: a correctly signed HS256 token whose expires-at lies at or
before the validation time fails claim validation with the expired
error among the joined claim errors. -/
theorem validateJWT_expired (tok : Token) (secret : String) (now exp : Int)
    (halg : tok.alg = Alg.HS256)
    (hsig : tok.sig = hmacSHA256 tok.alg tok.claims secret)
    (hexp : tok.claims.expiresAt = some exp) (hpast : exp ≤ now) :
    (ValidateJWT tok secret now).2 =
      some (JwtError.invalidClaims (validateClaims tok.claims now)) ∧
    ClaimErr.expired ∈ validateClaims tok.claims now := by
  have hmem : ClaimErr.expired ∈ validateClaims tok.claims now := by
    simp [validateClaims, hexp, not_lt.mpr hpast]
  have hne : validateClaims tok.claims now ≠ [] := by
    intro hnil
    rw [hnil] at hmem
    exact List.not_mem_nil _ hmem
  refine ⟨?_, hmem⟩
  unfold ValidateJWT
  rw [if_neg (by simp [halg]), if_neg (by simp [hsig]), if_pos hne]

/-- C8 witness: a token issued with a negative ttl is already expired
at validation time. -/
theorem validateJWT_expired_witness :
    (ValidateJWT (MakeJWT sampleUUID "s" (-10) 0 0) "s" 0).2 =
      some (JwtError.invalidClaims
        (validateClaims (MakeJWT sampleUUID "s" (-10) 0 0).claims 0)) ∧
    ClaimErr.expired ∈ validateClaims (MakeJWT sampleUUID "s" (-10) 0 0).claims 0 :=
  validateJWT_expired (MakeJWT sampleUUID "s" (-10) 0 0) "s" 0 (0 + (-10))
    rfl rfl rfl (by decide)

/-- The claims of a token carrying a non-HS256 algorithm, for concrete
failure runs. -/
def badClaims : Claims :=
  { issuer := "chirpy", subject := "x", issuedAt := none,
    expiresAt := none, notBefore := none }

/-- A token signed under HS384: its validation must fail. -/
def badAlgToken : Token :=
  { alg := Alg.HS384, claims := badClaims, sig := hmacSHA256 Alg.HS384 badClaims "s" }

/-- C10: whenever `ValidateJWT` reports an error it returns the
all-zero UUID, and a UUID other than the all-zero one is only ever
returned together with a `nil` error. -/
theorem validateJWT_zero_uuid_on_error (tok : Token) (secret : String) (now : Int) :
    ((ValidateJWT tok secret now).2 ≠ none →
      (ValidateJWT tok secret now).1 = zeroUUID) ∧
    ((ValidateJWT tok secret now).1 ≠ zeroUUID →
      (ValidateJWT tok secret now).2 = none) := by
  unfold ValidateJWT
  split_ifs with h1 h2 h3
  · exact ⟨fun _ => rfl, fun hu => absurd rfl hu⟩
  · exact ⟨fun _ => rfl, fun hu => absurd rfl hu⟩
  · exact ⟨fun _ => rfl, fun hu => absurd rfl hu⟩
  · cases hp : uuidParse tok.claims.subject with
    | none => exact ⟨fun _ => rfl, fun hu => absurd rfl hu⟩
    | some v => exact ⟨fun hc => absurd rfl hc, fun _ => rfl⟩

/-- C10 witness: a concrete failing validation returns the zero UUID
alongside its error. -/
theorem validateJWT_zero_uuid_on_error_witness :
    (ValidateJWT badAlgToken "s" 0).2 ≠ none ∧
    (ValidateJWT badAlgToken "s" 0).1 = zeroUUID :=
  ⟨by decide, (validateJWT_zero_uuid_on_error badAlgToken "s" 0).1 (by decide)⟩

/-! ## Claim theorems: credential hasher -/

/-- C2: hashing the empty password fails through the explicit guard:
the error is the empty-input error, no hash is produced (Go returns the
empty string alongside the error), and the underlying bcrypt primitive
is never invoked. -/
theorem hashPassword_empty_guard (salt : Nat) :
    HashPasswordTraced "" salt = ((none, some AuthError.emptyInput), []) := rfl

/-- C9 (amended): for every non-empty password of at most 72 bytes
(bcrypt's input limit), hashing under two distinct fresh salts yields
two different hashes, and the password verifies against both. -/
theorem hashPassword_fresh_salts (p : String) (s1 s2 : Nat) (hne : p ≠ "")
    (hlen : p.utf8ByteSize ≤ 72) (hs : s1 ≠ s2) :
    (HashPassword p s1).1 ≠ (HashPassword p s2).1 ∧
    CheckPasswordHash p (HashPassword p s1).1 = none ∧
    CheckPasswordHash p (HashPassword p s2).1 = none := by
  have hgen : ∀ s : Nat, (HashPassword p s).1 =
      some { cost := DefaultCost, salt := s, digest := bcryptKDF p s DefaultCost } := by
    intro s
    unfold HashPassword HashPasswordTraced GenerateFromPassword
    rw [if_neg hne, if_neg (by omega)]
  refine ⟨?_, ?_, ?_⟩
  · rw [hgen s1, hgen s2]
    intro hcontra
    exact hs (congrArg BcryptHash.salt (Option.some.inj hcontra))
  · rw [hgen s1]
    simp [CheckPasswordHash, CompareHashAndPassword]
  · rw [hgen s2]
    simp [CheckPasswordHash, CompareHashAndPassword]

/-- C9 witness: concrete password and salts. -/
theorem hashPassword_fresh_salts_witness :
    (HashPassword "hunter2" 3).1 ≠ (HashPassword "hunter2" 4).1 ∧
    CheckPasswordHash "hunter2" (HashPassword "hunter2" 3).1 = none ∧
    CheckPasswordHash "hunter2" (HashPassword "hunter2" 4).1 = none :=
  hashPassword_fresh_salts "hunter2" 3 4 (by decide) (by decide) (by decide)

/-- A 73-byte password, one byte over bcrypt's 72-byte input limit. -/
def longPassword : String :=
  "aaaaaaaaaaaaaaaaaaaaaaaaaaaaaaaaaaaaaaaaaaaaaaaaaaaaaaaaaaaaaaaaaaaaaaaaa"

/-- C9 counterexample: for this non-empty 73-byte password,
`bcrypt.GenerateFromPassword` fails with `ErrPasswordTooLong`, so the
two calls return equal (absent) hashes rather than two different hash
strings, and verification fails rather than succeeding. -/
theorem hashPassword_over_72_bytes :
    longPassword ≠ "" ∧ longPassword.utf8ByteSize = 73 ∧
    (HashPassword longPassword 0).2 = some AuthError.passwordTooLong ∧
    (HashPassword longPassword 0).1 = (HashPassword longPassword 1).1 ∧
    CheckPasswordHash longPassword (HashPassword longPassword 0).1 =
      some AuthError.malformedHash := by
  refine ⟨by decide, by decide, ?_, ?_, ?_⟩ <;> rfl

/-! ## Claim theorems: header extraction -/

/-- A token of fifteen two-byte characters: 15 characters, 30 UTF-8
bytes. -/
def unicodeToken : String := "ééééééééééééééé"

/-- C4 counterexample: the trimmed header `"Bearer "` + `unicodeToken`
starts with `"Bearer "` and its token has only 15 characters — below
the claimed 30-character threshold — yet `GetBearerToken` succeeds and
returns the token, because the source's guard `len(token) < 30` counts
UTF-8 bytes and the token has 30 of them. -/
theorem getBearerToken_unicode_token :
    startsWithList (trimSpaceList ("Bearer " ++ unicodeToken).data) bearerLit = true ∧
    unicodeToken.length = 15 ∧ unicodeToken.utf8ByteSize = 30 ∧
    GetBearerToken ("Bearer " ++ unicodeToken) = (unicodeToken, none) ∧
    (GetBearerToken ("Bearer " ++ unicodeToken)).2 ≠ some BearerErr.tokenTooShort := by
  refine ⟨by decide, by decide, by decide, by decide, by decide⟩

/-- C4 (amended): whenever the trimmed header value does start with
`"Bearer "`, `GetBearerToken` fails with the token-too-short error
exactly when the token left after removing the prefix and trimming has
UTF-8 byte length (Go's `len`) below 30. -/
theorem getBearerToken_short_iff (h : String)
    (hpre : startsWithList (trimSpaceList h.data) bearerLit = true) :
    ((GetBearerToken h).2 = some BearerErr.tokenTooShort ↔
      (⟨trimSpaceList ((trimSpaceList h.data).drop 6)⟩ : String).utf8ByteSize < 30) := by
  have hne : h ≠ "" := by
    intro he
    rw [he] at hpre
    exact absurd hpre (by decide)
  simp only [GetBearerToken]
  rw [if_neg hne, if_neg (by simp [hpre])]
  by_cases hlen :
      (⟨trimSpaceList ((trimSpaceList h.data).drop 6)⟩ : String).utf8ByteSize < 30
  · rw [if_pos hlen]
    simpa using hlen
  · rw [if_neg hlen]
    simpa using hlen

/-- C4 witness: `"Bearer shorttoken"` carries a 10-character token and
fails. -/
theorem getBearerToken_short_iff_witness :
    (GetBearerToken "Bearer shorttoken").2 = some BearerErr.tokenTooShort :=
  (getBearerToken_short_iff "Bearer shorttoken" (by decide)).mpr (by decide)

/-- C5: every non-empty header value whose trimmed form does not start
with the literal `"Bearer "` (case-sensitive, with the space) fails
with the malformed-header error. -/
theorem getBearerToken_malformed_header (h : String) (hne : h ≠ "")
    (hpre : startsWithList (trimSpaceList h.data) bearerLit = false) :
    GetBearerToken h = ("", some BearerErr.malformedHeader) := by
  simp only [GetBearerToken]
  rw [if_neg hne, if_pos (by simp [hpre])]

/-- C5 witness: a `"Bearer"`-glued token without the required space
fails even though it is long enough. -/
theorem getBearerToken_malformed_header_witness :
    GetBearerToken "BearerNoSpaceTokenOfSufficientLengthAAAAAAAAAA" =
      ("", some BearerErr.malformedHeader) :=
  getBearerToken_malformed_header "BearerNoSpaceTokenOfSufficientLengthAAAAAAAAAA"
    (by decide) (by decide)

/-- A 30-character token consisting of one letter and 29 trailing
spaces. -/
def paddedToken : String := "a                             "

/-- C6 counterexample: this token has the threshold length 30, yet
`GetBearerToken` on `"Bearer "` followed by it does not return the
trimmed token — the trimming shrinks the token below the threshold and
the call fails with the token-too-short error. -/
theorem getBearerToken_padded_token :
    paddedToken.length = 30 ∧
    GetBearerToken ("Bearer " ++ paddedToken) = ("", some BearerErr.tokenTooShort) := by
  constructor
  · decide
  · decide

/-- C6 (amended): for every token whose whitespace-trimmed form still
has at least the threshold length 30, `GetBearerToken` on `"Bearer "`
followed by the token returns exactly the trimmed token with a `nil`
error. -/
theorem getBearerToken_trimmed_token (token : String)
    (hlen : 30 ≤ (trimSpace token).length) :
    GetBearerToken ("Bearer " ++ token) = (trimSpace token, none) := by
  have hlen' : 30 ≤ (trimSpaceList token.data).length := hlen
  have hD : token.data.reverse.dropWhile goIsSpace ≠ [] := by
    intro hnil
    have hall : ∀ x ∈ token.data, goIsSpace x :=
      fun x hx => (List.dropWhile_eq_nil_iff.mp hnil) x (List.mem_reverse.mpr hx)
    have hdw : token.data.dropWhile goIsSpace = [] := List.dropWhile_eq_nil_iff.mpr hall
    have hts : trimSpaceList token.data = [] := by
      rw [trimSpaceList_eq, hdw, List.rdropWhile_nil]
    rw [hts] at hlen'
    simp at hlen'
  have hne : ("Bearer " ++ token) ≠ "" := by
    intro hc
    have hcd : ("Bearer " ++ token).data = [] := by rw [hc]
    have : bearerLit ++ token.data = [] := hcd
    simp [bearerLit] at this
  have htrim : trimSpaceList (bearerLit ++ token.data) =
      bearerLit ++ List.rdropWhile goIsSpace token.data := by
    rw [trimSpaceList_eq]
    have h1 : (bearerLit ++ token.data).dropWhile goIsSpace = bearerLit ++ token.data := by
      show ('B' :: (['e', 'a', 'r', 'e', 'r', ' '] ++ token.data)).dropWhile goIsSpace = _
      rw [List.dropWhile_cons_of_neg (by decide)]
      rfl
    rw [h1, List.rdropWhile, List.reverse_append,
      dropWhile_append_ne_nil _ hD, List.reverse_append, List.reverse_reverse,
      List.rdropWhile]
  have hpre : startsWithList (bearerLit ++ List.rdropWhile goIsSpace token.data)
      bearerLit = true := by
    unfold startsWithList
    rw [List.take_left]
    simp
  have hdrop : (bearerLit ++ List.rdropWhile goIsSpace token.data).drop 6 =
      ' ' :: List.rdropWhile goIsSpace token.data := rfl
  have htok : trimSpaceList (' ' :: List.rdropWhile goIsSpace token.data) =
      trimSpaceList token.data := by
    rw [trimSpaceList_eq, trimSpaceList_eq,
      List.dropWhile_cons_of_pos (by decide),
      dropWhile_rdropWhile_comm, List.rdropWhile_idempotent]
  have hdata : ("Bearer " ++ token).data = bearerLit ++ token.data := rfl
  simp only [GetBearerToken]
  rw [if_neg hne, hdata, htrim, if_neg (by simp [hpre]), hdrop, htok,
    if_neg (by have hb := length_le_utf8ByteSize (trimSpaceList token.data); omega)]
  rfl

/-- C6 witness for the amended statement: a 30-character token with no
surrounding whitespace is returned unchanged. -/
theorem getBearerToken_trimmed_token_witness :
    (30 : Nat) ≤ (trimSpace "abcdefghijklmnopqrstuvwxyz0123").length ∧
    GetBearerToken ("Bearer " ++ "abcdefghijklmnopqrstuvwxyz0123") =
      (trimSpace "abcdefghijklmnopqrstuvwxyz0123", none) :=
  ⟨by decide, getBearerToken_trimmed_token "abcdefghijklmnopqrstuvwxyz0123" (by decide)⟩
